import Mathlib

/-!
Verification of the MindChain consent / key-distribution core.

The development shallowly embeds:
* the `HealthDataContract` Solidity contract (consents, health records,
  wrapped-key pointers) as a state machine over `ChainState`;
* the TypeScript client layer (`contractService.ts`, `cryptoService.ts`,
  the consent-viewing pages): client-side access evaluation, the consent
  status classifier, and the key share / recover protocols with their
  hex wire format.

Machine integers (`uint256`, timestamps) are modelled as `Nat`; addresses
are modelled as `String` with a distinguished zero address; Solidity
`require` failures are modelled as `Except` errors (a revert leaves the
state unchanged, which `applyOp` reflects by keeping the pre-state).
-/

namespace HealthData

/-- Addresses as opaque strings; Solidity compares them by exact equality. -/
abbrev Address := String

/-- The Solidity zero address `address(0)`. -/
def zeroAddress : Address := "0x0000000000000000000000000000000000000000"

/-- Solidity struct `ConsentRecord` (contract) / TS interface `ConsentRecord`
(client types): one consent of one provider to one record. -/
structure ConsentRecord where
  id : Nat
  patientAddress : Address
  providerAddress : Address
  recordId : Nat
  purpose : String
  expiryDate : Nat
  isActive : Bool
deriving Repr, DecidableEq

/-- The all-zero `ConsentRecord`, the value a Solidity mapping returns for an
absent key (`id = 0` is the absence sentinel). -/
def emptyConsent : ConsentRecord :=
  { id := 0, patientAddress := zeroAddress, providerAddress := zeroAddress,
    recordId := 0, purpose := "", expiryDate := 0, isActive := false }

/-- Solidity struct `HealthRecord`. -/
structure HealthRecord where
  id : Nat
  patientAddress : Address
  title : String
  description : String
  dataHash : String
  dateCreated : Nat
deriving Repr, DecidableEq

/-- The all-zero `HealthRecord` returned by a mapping for an absent key. -/
def emptyRecord : HealthRecord :=
  { id := 0, patientAddress := zeroAddress, title := "", description := "",
    dataHash := "", dateCreated := 0 }

/-- Contract events, in emission order. -/
inductive Event where
  | ConsentGranted (consentId : Nat) (patientAddress providerAddress : Address)
      (recordId expiryDate : Nat)
  | ConsentRevoked (consentId : Nat)
  | RecordUploaded (recordId : Nat) (patientAddress : Address) (title dataHash : String)
  | WrappedKeyShared (recordId : Nat) (patientAddress providerAddress : Address)
      (wrappedKeyIpfsHash : String)
deriving Repr, DecidableEq

/-- The contract storage: the two counters, the three mappings and the
append-only event log. -/
structure ChainState where
  consentCount : Nat
  recordCount : Nat
  consents : Nat → ConsentRecord
  healthRecords : Nat → HealthRecord
  wrappedKeyIpfsHashes : Nat → Address → String
  events : List Event

/-- The state of a freshly deployed contract. -/
def initialState : ChainState :=
  { consentCount := 0, recordCount := 0,
    consents := fun _ => emptyConsent,
    healthRecords := fun _ => emptyRecord,
    wrappedKeyIpfsHashes := fun _ _ => "",
    events := [] }

/-- The distinct `require` messages of the contract, one constructor per
revert string. -/
inductive ContractError where
  | RecordNotFound         -- "Record: Does not exist"
  | InvalidProviderAddress -- "Consent: Invalid provider address" / "KeyShare: Invalid provider address"
  | ExpiryNotFuture        -- "Consent: Expiry must be in the future"
  | NotRecordOwner         -- "Consent: Caller does not own record" / "KeyShare: Caller is not record owner"
  | ConsentNotFound        -- "Consent: Does not exist."
  | NotPatient             -- "Consent: Caller is not the patient"
  | EmptyKeyHash           -- "KeyShare: Hash cannot be empty"
  | NotIntendedProvider    -- "Access Denied: Caller is not the intended provider"
  | NoActiveConsent        -- "Access Denied: No active consent found for this record/provider"
deriving Repr, DecidableEq

/-- The two revert strings of `getWrappedKeyHash` that begin with
"Access Denied". -/
def ContractError.isAccessDenied : ContractError → Bool
  | .NotIntendedProvider => true
  | .NoActiveConsent => true
  | _ => false

/-- Contract function `grantConsent`: `recordExists` modifier, then the three
`require`s, then storage of a fresh consent under the incremented counter.
`sender` is `msg.sender`, `now` is `block.timestamp`. -/
def grantConsent (s : ChainState) (sender : Address) (now : Nat)
    (providerAddress : Address) (recordId : Nat) (purpose : String)
    (expiryDateTimestamp : Nat) : Except ContractError (ChainState × Nat) :=
  if (s.healthRecords recordId).id = 0 then .error .RecordNotFound
  else if providerAddress = zeroAddress then .error .InvalidProviderAddress
  else if ¬ expiryDateTimestamp > now then .error .ExpiryNotFuture
  else if ¬ (s.healthRecords recordId).patientAddress = sender then .error .NotRecordOwner
  else
    let consentId := s.consentCount + 1
    let c : ConsentRecord :=
      { id := consentId, patientAddress := sender, providerAddress := providerAddress,
        recordId := recordId, purpose := purpose, expiryDate := expiryDateTimestamp,
        isActive := true }
    .ok ({ s with
            consentCount := consentId,
            consents := fun i => if i = consentId then c else s.consents i,
            events := s.events ++
              [.ConsentGranted consentId sender providerAddress recordId expiryDateTimestamp] },
          consentId)

/-- Contract function `revokeConsent`: existence and ownership `require`s,
then `isActive := false` and a `ConsentRevoked` event (emitted on every
successful call, also when the consent was already inactive). -/
def revokeConsent (s : ChainState) (sender : Address) (consentId : Nat) :
    Except ContractError ChainState :=
  if (s.consents consentId).id = 0 then .error .ConsentNotFound
  else if ¬ (s.consents consentId).patientAddress = sender then .error .NotPatient
  else
    .ok { s with
            consents := fun i =>
              if i = consentId then { s.consents consentId with isActive := false }
              else s.consents i,
            events := s.events ++ [.ConsentRevoked consentId] }

/-- Contract function `uploadRecord`: always succeeds, stores a fresh record
under the incremented counter. -/
def uploadRecord (s : ChainState) (sender : Address) (now : Nat)
    (title description dataHash : String) : ChainState × Nat :=
  let recordId := s.recordCount + 1
  let r : HealthRecord :=
    { id := recordId, patientAddress := sender, title := title,
      description := description, dataHash := dataHash, dateCreated := now }
  ({ s with
      recordCount := recordId,
      healthRecords := fun i => if i = recordId then r else s.healthRecords i,
      events := s.events ++ [.RecordUploaded recordId sender title dataHash] },
    recordId)

/-- Contract function `shareWrappedKeyHash`: record existence, ownership,
provider and non-empty-hash `require`s, then last-write-wins storage of the
pointer for `(recordId, providerAddress)`. -/
def shareWrappedKeyHash (s : ChainState) (sender : Address) (recordId : Nat)
    (providerAddress : Address) (wrappedKeyIpfsHash : String) :
    Except ContractError ChainState :=
  if (s.healthRecords recordId).id = 0 then .error .RecordNotFound
  else if ¬ (s.healthRecords recordId).patientAddress = sender then .error .NotRecordOwner
  else if providerAddress = zeroAddress then .error .InvalidProviderAddress
  else if wrappedKeyIpfsHash = "" then .error .EmptyKeyHash
  else
    .ok { s with
            wrappedKeyIpfsHashes := fun r p =>
              if r = recordId ∧ p = providerAddress then wrappedKeyIpfsHash
              else s.wrappedKeyIpfsHashes r p,
            events := s.events ++
              [.WrappedKeyShared recordId sender providerAddress wrappedKeyIpfsHash] }

/-- The consent scan inside `getWrappedKeyHash`: some consent with index in
`1..consentCount` matches the record owner, the provider and the record, is
active and is unexpired (`block.timestamp <= expiryDate`). -/
def hasValidConsent (s : ChainState) (now : Nat) (recordId : Nat)
    (providerAddress : Address) : Bool :=
  (List.range s.consentCount).any fun j =>
    let c := s.consents (j + 1)
    c.patientAddress = (s.healthRecords recordId).patientAddress ∧
    c.providerAddress = providerAddress ∧
    c.recordId = recordId ∧
    c.isActive = true ∧
    now ≤ c.expiryDate

/-- Contract function `getWrappedKeyHash`: `recordExists` modifier, the
caller-is-provider `require`, the valid-consent scan, then the stored
pointer. -/
def getWrappedKeyHash (s : ChainState) (now : Nat) (sender : Address)
    (recordId : Nat) (providerAddress : Address) : Except ContractError String :=
  if (s.healthRecords recordId).id = 0 then .error .RecordNotFound
  else if ¬ providerAddress = sender then .error .NotIntendedProvider
  else if ¬ hasValidConsent s now recordId providerAddress then .error .NoActiveConsent
  else .ok (s.wrappedKeyIpfsHashes recordId providerAddress)

/-- Contract function `getConsentById`: reverts on the `id = 0` sentinel. -/
def getConsentById (s : ChainState) (consentId : Nat) :
    Except ContractError ConsentRecord :=
  if (s.consents consentId).id = 0 then .error .ConsentNotFound
  else .ok (s.consents consentId)

/-- Contract view `checkRecordSpecificAccess`: scan for an active, unexpired
consent of this patient to this provider for this record. -/
def checkRecordSpecificAccess (s : ChainState) (now : Nat)
    (patientAddress providerAddress : Address) (recordId : Nat) : Bool :=
  (List.range s.consentCount).any fun j =>
    let c := s.consents (j + 1)
    c.patientAddress = patientAddress ∧
    c.providerAddress = providerAddress ∧
    c.recordId = recordId ∧
    c.isActive = true ∧
    now ≤ c.expiryDate

/-- A state-changing contract call together with its caller and its block
timestamp. -/
inductive Op where
  | grant (sender : Address) (now : Nat) (providerAddress : Address)
      (recordId : Nat) (purpose : String) (expiryDateTimestamp : Nat)
  | revoke (sender : Address) (consentId : Nat)
  | upload (sender : Address) (now : Nat) (title description dataHash : String)
  | shareKey (sender : Address) (recordId : Nat) (providerAddress : Address)
      (wrappedKeyIpfsHash : String)

/-- Apply one write call: a revert (`Except.error`) leaves the storage
unchanged, exactly as an EVM revert does. -/
def applyOp (s : ChainState) : Op → ChainState
  | .grant sender now providerAddress recordId purpose expiry =>
      match grantConsent s sender now providerAddress recordId purpose expiry with
      | .ok (s2, _) => s2
      | .error _ => s
  | .revoke sender consentId =>
      match revokeConsent s sender consentId with
      | .ok s2 => s2
      | .error _ => s
  | .upload sender now title description dataHash =>
      (uploadRecord s sender now title description dataHash).1
  | .shareKey sender recordId providerAddress hash =>
      match shareWrappedKeyHash s sender recordId providerAddress hash with
      | .ok s2 => s2
      | .error _ => s

/-- Run a sequence of write calls. -/
def execOps (s : ChainState) (ops : List Op) : ChainState :=
  ops.foldl applyOp s

/-- A ledger state that some sequence of calls can produce from deployment. -/
def Reachable (s : ChainState) : Prop :=
  ∃ ops, s = execOps initialState ops

/-- The well-formedness invariant of the contract storage: consent ids are
exactly `1..consentCount`, each stored under its own key with `0` as the
absence sentinel; likewise for records; and every stored consent references
an existing record whose owner is the consent's `patientAddress`. -/
structure Inv (s : ChainState) : Prop where
  consent_id : ∀ i, (s.consents i).id =
    if 1 ≤ i ∧ i ≤ s.consentCount then i else 0
  record_id : ∀ i, (s.healthRecords i).id =
    if 1 ≤ i ∧ i ≤ s.recordCount then i else 0
  consent_link : ∀ i, 1 ≤ i → i ≤ s.consentCount →
    1 ≤ (s.consents i).recordId ∧ (s.consents i).recordId ≤ s.recordCount ∧
    (s.consents i).patientAddress =
      (s.healthRecords (s.consents i).recordId).patientAddress

/-- The state stored by a successful `grantConsent`. -/
def grantedState (s : ChainState) (sender : Address) (providerAddress : Address)
    (recordId : Nat) (purpose : String) (expiry : Nat) : ChainState :=
  { s with
      consentCount := s.consentCount + 1,
      consents := fun i => if i = s.consentCount + 1 then
          { id := s.consentCount + 1, patientAddress := sender,
            providerAddress := providerAddress, recordId := recordId,
            purpose := purpose, expiryDate := expiry, isActive := true }
        else s.consents i,
      events := s.events ++
        [.ConsentGranted (s.consentCount + 1) sender providerAddress recordId expiry] }

/-- The state stored by a successful `revokeConsent`. -/
def revokedState (s : ChainState) (consentId : Nat) : ChainState :=
  { s with
      consents := fun i =>
        if i = consentId then { s.consents consentId with isActive := false }
        else s.consents i,
      events := s.events ++ [.ConsentRevoked consentId] }

/-- The state stored by a successful `shareWrappedKeyHash`. -/
def sharedKeyState (s : ChainState) (sender : Address) (recordId : Nat)
    (providerAddress : Address) (hash : String) : ChainState :=
  { s with
      wrappedKeyIpfsHashes := fun r p =>
        if r = recordId ∧ p = providerAddress then hash
        else s.wrappedKeyIpfsHashes r p,
      events := s.events ++ [.WrappedKeyShared recordId sender providerAddress hash] }

end HealthData

namespace Client

open HealthData

/-- TS `String.prototype.toLowerCase` as used for address comparison:
lower-case every character. -/
def toLowerCase (s : String) : String := String.mk (s.data.map Char.toLower)

/-- `contractService.checkProviderAccessForRecordClientSide`: client-side
access evaluation over a pre-fetched consent list. The TS code reads
`Date.now()` internally; the embedding takes `now` (unix seconds) as the
first argument. -/
def checkProviderAccessForRecordClientSide (now : Nat) (targetRecordId : Nat)
    (providerAddress : String) (relevantConsents : List ConsentRecord) : Bool :=
  if relevantConsents.isEmpty then false
  else relevantConsents.any fun consent =>
    (toLowerCase consent.providerAddress = toLowerCase providerAddress) ∧
    consent.recordId = targetRecordId ∧
    consent.isActive = true ∧
    now ≤ consent.expiryDate

/-- `viewConsentAddress.isConsentActiveNow`: a single consent is currently
valid iff it is active and unexpired (`expiryDate >= now`). -/
def isConsentActiveNow (now : Nat) (consent : ConsentRecord) : Bool :=
  consent.isActive && decide (now ≤ consent.expiryDate)

/-- `viewConsent.isConsentValidNow`: the fetched consent is valid for the
logged-in provider (null checks, active, unexpired, case-insensitive
address match). -/
def isConsentValidNow (now : Nat) (consent : Option ConsentRecord)
    (currentProviderAddress : Option String) : Bool :=
  match consent, currentProviderAddress with
  | some c, some addr =>
      c.isActive && decide (now ≤ c.expiryDate) &&
      (toLowerCase c.providerAddress == toLowerCase addr)
  | _, _ => false

/-- The four states of the viewConsent status badge. -/
inductive ConsentStatus where
  | BelongsToOtherProvider
  | Revoked
  | Expired
  | ActiveValid
deriving Repr, DecidableEq

/-- The status-badge chain of `ViewConsentPage` (provider mismatch, then
revoked, then expired, then active and valid), applied to the fetched
consent and the logged-in provider address. -/
def consentStatusBadge (now : Nat) (userAddress : String)
    (consent : ConsentRecord) : ConsentStatus :=
  if toLowerCase consent.providerAddress ≠ toLowerCase userAddress then
    .BelongsToOtherProvider
  else if consent.isActive = false then .Revoked
  else if consent.expiryDate < now then .Expired
  else .ActiveValid

/-- The per-consent badge of `ViewPatientConsentsPage`
(`Active` / `Expired` / `Revoked`). -/
inductive ListedConsentStatus where
  | Active
  | Expired
  | Revoked
deriving Repr, DecidableEq

/-- The list badge of `ViewPatientConsentsPage`: `Active` when
`isConsentActiveNow`, else `Expired` when the flag is still set, else
`Revoked`. -/
def consentListBadge (now : Nat) (consent : ConsentRecord) : ListedConsentStatus :=
  if isConsentActiveNow now consent then .Active
  else if consent.isActive then .Expired
  else .Revoked

/-- `contractService.getConsentDetailsById`: the read call is wrapped in a
try/catch returning `null`, and an `id = 0` result is also mapped to
`null`. -/
def getConsentDetailsById (s : ChainState) (consentId : Nat) : Option ConsentRecord :=
  match getConsentById s consentId with
  | .error _ => none
  | .ok consent => if consent.id = 0 then none else some consent

/-- Byte sequences (entries are byte values, kept below 256 by hypotheses). -/
abbrev Bytes := List Nat

/-- `IV_LENGTH_BYTES` from cryptoService: AES-GCM nonce length. -/
def IV_LENGTH_BYTES : Nat := 12

/-- The WebCrypto AES-GCM primitive used by cryptoService, abstract:
encryption of data under a raw key and an IV, and authenticated decryption
returning `none` on failure. -/
structure AeadCipher where
  encryptRaw : Bytes → Bytes → Bytes → Bytes
  decryptRaw : Bytes → Bytes → Bytes → Option Bytes

/-- The AEAD contract of AES-GCM: decryption under the same key and IV
recovers the plaintext, and a ciphertext is the plaintext plus the 16-byte
authentication tag. -/
structure AeadCipher.Correct (C : AeadCipher) : Prop where
  roundtrip : ∀ key iv data, C.decryptRaw key iv (C.encryptRaw key iv data) = some data
  length_encryptRaw : ∀ key iv data, (C.encryptRaw key iv data).length = data.length + 16

/-- The value `encryptData` resolves with: ciphertext and the fresh IV. -/
structure EncryptResult where
  encryptedData : Bytes
  iv : Bytes
deriving Repr, DecidableEq

/-- `cryptoService.encryptData`: rejects empty input, otherwise encrypts
under a fresh 12-byte IV (the IV, drawn by `getRandomValues`, is passed in
explicitly here). -/
def encryptData (C : AeadCipher) (iv : Bytes) (data : Bytes) (key : Bytes) :
    Option EncryptResult :=
  if data.length = 0 then none
  else some { encryptedData := C.encryptRaw key iv data, iv := iv }

/-- `cryptoService.decryptData`: the wire form is `iv || ciphertext`; inputs
not longer than the IV are rejected, the first 12 bytes are the IV and the
rest is the authenticated ciphertext. -/
def decryptData (C : AeadCipher) (encryptedDataWithIv : Bytes) (key : Bytes) :
    Option Bytes :=
  if encryptedDataWithIv.length ≤ IV_LENGTH_BYTES then none
  else C.decryptRaw key (encryptedDataWithIv.take IV_LENGTH_BYTES)
        (encryptedDataWithIv.drop IV_LENGTH_BYTES)

/-- Lower-case hex digit for a nibble (`0-9` then `a-f`), as produced by
Node's `Buffer.prototype.toString('hex')`. -/
def hexDigitChar (d : Nat) : Char :=
  if d < 10 then Char.ofNat (48 + d) else Char.ofNat (87 + d)

/-- The two hex digits of one byte. -/
def byteToHexChars (b : Nat) : List Char :=
  [hexDigitChar (b / 16), hexDigitChar (b % 16)]

/-- Hex encoding of a byte sequence, two digits per byte in order. -/
def bytesToHexChars : Bytes → List Char
  | [] => []
  | b :: rest => byteToHexChars b ++ bytesToHexChars rest

/-- `Buffer.from(rawKeyBuffer).toString('hex')`. -/
def bytesToHexString (bs : Bytes) : String := String.mk (bytesToHexChars bs)

/-- The value of one hex digit, accepting both cases
(as `Buffer.from(_, 'hex')` does). -/
def hexCharVal (c : Char) : Option Nat :=
  if 48 ≤ c.toNat ∧ c.toNat ≤ 57 then some (c.toNat - 48)
  else if 97 ≤ c.toNat ∧ c.toNat ≤ 102 then some (c.toNat - 87)
  else if 65 ≤ c.toNat ∧ c.toNat ≤ 70 then some (c.toNat - 55)
  else none

/-- `Buffer.from(str, 'hex')`: decode consecutive digit pairs, stopping at
the first invalid pair or lone trailing digit (Node truncates there). -/
def hexCharsToBytes : List Char → Bytes
  | c1 :: c2 :: rest =>
      match hexCharVal c1, hexCharVal c2 with
      | some hi, some lo => (16 * hi + lo) :: hexCharsToBytes rest
      | _, _ => []
  | _ => []

/-- JS whitespace code points handled by `String.prototype.trim` (the
common ones; hex digits are never among them). -/
def isJsWhitespaceChar (c : Char) : Bool :=
  c.toNat = 9 ∨ c.toNat = 10 ∨ c.toNat = 11 ∨ c.toNat = 12 ∨ c.toNat = 13 ∨
  c.toNat = 32 ∨ c.toNat = 160 ∨ c.toNat = 65279

/-- `String.prototype.trim`: drop whitespace from both ends. -/
def trimChars (cs : List Char) : List Char :=
  ((cs.dropWhile isJsWhitespaceChar).reverse.dropWhile isJsWhitespaceChar).reverse

/-- Whether one hex digit (either case). -/
def isHexDigit (c : Char) : Bool := (hexCharVal c).isSome

/-- `str.startsWith('0x')` on the character list. -/
def startsWith0x (cs : List Char) : Bool := cs.take 2 = ['0', 'x']

/-- The regex `^(0x)?[a-fA-F0-9]+$` used to validate the fetched key data. -/
def matchesHexKeyRegex (cs : List Char) : Bool :=
  let body := if startsWith0x cs then cs.drop 2 else cs
  ¬ body.isEmpty ∧ body.all isHexDigit

/-- `str.startsWith('0x') ? str.substring(2) : str`. -/
def strip0x (cs : List Char) : List Char :=
  if startsWith0x cs then cs.drop 2 else cs

/-- `str.startsWith('0x') ? str : '0x' + str`. -/
def prefix0x (cs : List Char) : List Char :=
  if startsWith0x cs then cs else '0' :: 'x' :: cs

/-- Modelled from the spec: the external BlobStore of §6
(`put(bytes) -> content_address`, `get(content_address) -> bytes`).
`ipfsService.ts` is only an HTTP client to the Pinata pinning service, so
the store itself is outside the repository; it is modelled as an
association list of content-addressed text blobs, newest first, with a
fresh address minted per upload. -/
structure IpfsStore where
  blobs : List (String × String)

/-- `ipfsService.uploadToIPFS`: store the blob, return its content address. -/
def uploadToIPFS (store : IpfsStore) (content : String) : String × IpfsStore :=
  let cid := String.mk ('Q' :: 'm' :: (toString store.blobs.length).data)
  (cid, ⟨(cid, content) :: store.blobs⟩)

/-- `ipfsService.fetchFromIPFS`: fetch the blob at a content address. -/
def fetchFromIPFS (store : IpfsStore) (cid : String) : Option String :=
  (store.blobs.find? fun e => e.1 == cid).map Prod.snd

/-- `contractService.getWrappedKeyHash` (client): the contract read wrapped
in a try/catch that maps any revert to the empty string. -/
def clientGetWrappedKeyHash (s : ChainState) (now : Nat) (sender : Address)
    (recordId : Nat) (providerAddress : Address) : String :=
  match getWrappedKeyHash s now sender recordId providerAddress with
  | .ok h => h
  | .error _ => ""

/-- `contractService.shareWrappedKeyWithProvider` (client): the contract
write wrapped in a try/catch returning success as a boolean; modelled with
the updated chain state on success. -/
def shareWrappedKeyWithProvider (s : ChainState) (sender : Address)
    (recordId : Nat) (providerAddress : Address) (wrappedKeyIpfsHash : String) :
    Option ChainState :=
  match shareWrappedKeyHash s sender recordId providerAddress wrappedKeyIpfsHash with
  | .ok s2 => some s2
  | .error _ => none

/-- `cryptoService.shareKeyForRecord`: export the raw key, hex-encode it,
upload the hex text to the blob store, then record the returned pointer on
chain for `(recordId, providerAddress)`; any failing step aborts with no
result. -/
def shareKeyForRecord (chain : ChainState) (ipfs : IpfsStore) (sender : Address)
    (patientKey : Bytes) (recordId : Nat) (providerAddress : Address) :
    Option (ChainState × IpfsStore) :=
  if patientKey.isEmpty then none
  else
    let sharedKeyHex := bytesToHexString patientKey
    if sharedKeyHex = "" then none
    else
      let up := uploadToIPFS ipfs sharedKeyHex
      match shareWrappedKeyWithProvider chain sender recordId providerAddress up.1 with
      | some chain2 => some (chain2, up.2)
      | none => none

/-- The failure modes of `getDecryptionKeyForRecord_Provider`, one per
abort site of the TS function. -/
inductive RecoverError where
  | AccessDenied      -- empty pointer: the "Access Denied" alert, null return
  | FetchFailed       -- blob fetch failed
  | EmptyKeyData      -- fetched key data empty after trim
  | MalformedKeyData  -- fetched key data fails the hex regex
  | EmptyDecodedKey   -- decoded key buffer is empty
deriving Repr, DecidableEq

/-- `cryptoService.getDecryptionKeyForRecord_Provider`: read the pointer via
the consent-gated contract call (empty means access denied), fetch the hex
blob, trim and validate it, run the `eth_decrypt` gatekeeper (keeping the
fetched hex when the wallet fails, returns a falsy value or a
case-insensitive passthrough), strip the `0x` prefix, hex-decode, and
re-import the raw bytes. -/
def getDecryptionKeyForRecord_Provider (chain : ChainState) (ipfs : IpfsStore)
    (ethDecrypt : String → Option String) (now : Nat) (sender : Address)
    (providerAddress : Address) (recordId : Nat) : Except RecoverError Bytes :=
  let sharedKeyIpfsHash := clientGetWrappedKeyHash chain now sender recordId providerAddress
  if sharedKeyIpfsHash = "" then .error .AccessDenied
  else
    match fetchFromIPFS ipfs sharedKeyIpfsHash with
    | none => .error .FetchFailed
    | some blob =>
        let hexKeyData := trimChars blob.data
        if hexKeyData.isEmpty then .error .EmptyKeyData
        else if ¬ matchesHexKeyRegex hexKeyData then .error .MalformedKeyData
        else
          let keyToImportHex :=
            match ethDecrypt (String.mk (prefix0x hexKeyData)) with
            | some decryptResult =>
                if decryptResult.data.isEmpty then hexKeyData
                else if toLowerCase (String.mk (strip0x decryptResult.data)) =
                        toLowerCase (String.mk (strip0x hexKeyData)) then hexKeyData
                else decryptResult.data
            | none => hexKeyData
          let rawKey := hexCharsToBytes (strip0x keyToImportHex)
          if rawKey.isEmpty then .error .EmptyDecodedKey
          else .ok rawKey

/-- What the consent-verification page reports for a consent id. -/
inductive ViewConsentOutcome where
  | NotFound
  | Status (status : ConsentStatus)
deriving Repr, DecidableEq

/-- `ViewConsentPage.handleFetchConsent` followed by the status badge:
a `null` lookup renders the not-found error, otherwise the badge. -/
def viewConsentOutcome (s : ChainState) (now : Nat) (userAddress : String)
    (consentId : Nat) : ViewConsentOutcome :=
  match getConsentDetailsById s consentId with
  | none => .NotFound
  | some consent => .Status (consentStatusBadge now userAddress consent)

end Client

namespace Fixtures

open HealthData

/-- A ledger with one record (id 1) owned by `0xa`. -/
def stateWithRecord : ChainState :=
  execOps initialState [.upload "0xa" 10 "title" "desc" "QmData"]

/-- A ledger with record 1 owned by `0xa` and consent 1 granted to `0xb`
for record 1, expiring at 100. -/
def stateWithConsent : ChainState :=
  execOps initialState
    [.upload "0xa" 10 "title" "desc" "QmData", .grant "0xa" 11 "0xb" 1 "care" 100]

/-- `stateWithConsent` after `0xa` has revoked consent 1 once. -/
def stateRevokedOnce : ChainState :=
  execOps initialState
    [.upload "0xa" 10 "title" "desc" "QmData", .grant "0xa" 11 "0xb" 1 "care" 100,
     .revoke "0xa" 1]

end Fixtures

open HealthData Client Fixtures

/-- A concrete consent: record 1 granted to `0xB`, expiring at 50, active. -/
def consentFixture : ConsentRecord :=
  ⟨1, "0xa", "0xB", 1, "care", 50, true⟩

/-- A toy AEAD instance for the witness: the tag is 16 zero bytes appended
to the plaintext. -/
def padCipher : AeadCipher :=
  { encryptRaw := fun _ _ data => data ++ List.replicate 16 0,
    decryptRaw := fun _ _ ct => some (ct.take (ct.length - 16)) }

/-- The claim's validity condition: some stored consent matches the
`(record, requester)` pair, is active and is unexpired at `now`. -/
def ConsentValidFor (s : ChainState) (now recordId : Nat)
    (requester : Address) : Prop :=
  ∃ i, 1 ≤ i ∧ i ≤ s.consentCount ∧
    (s.consents i).recordId = recordId ∧
    (s.consents i).providerAddress = requester ∧
    (s.consents i).isActive = true ∧
    now ≤ (s.consents i).expiryDate

/-- The ledger after `0xa` shared the hex-encoded key `[171, 205]` for
record 1 with `0xb` (pointer recorded on chain). -/
def sharedChainFixture : ChainState :=
  sharedKeyState stateWithConsent "0xa" 1 "0xb"
    (uploadToIPFS ⟨[]⟩ (bytesToHexString [171, 205])).1

/-- The blob store holding that hex-encoded key. -/
def sharedIpfsFixture : IpfsStore :=
  (uploadToIPFS ⟨[]⟩ (bytesToHexString [171, 205])).2

namespace HealthData

theorem grantConsent_ok_iff {s : ChainState} {sender : Address} {now : Nat}
    {providerAddress : Address} {recordId : Nat} {purpose : String} {expiry : Nat}
    {s2 : ChainState} {cid : Nat} :
    grantConsent s sender now providerAddress recordId purpose expiry = .ok (s2, cid) ↔
      (s.healthRecords recordId).id ≠ 0 ∧ providerAddress ≠ zeroAddress ∧
      expiry > now ∧ (s.healthRecords recordId).patientAddress = sender ∧
      s2 = grantedState s sender providerAddress recordId purpose expiry ∧
      cid = s.consentCount + 1 := by
  unfold grantConsent grantedState
  by_cases h1 : (s.healthRecords recordId).id = 0
  · simp [h1]
  · rw [if_neg h1]
    by_cases h2 : providerAddress = zeroAddress
    · simp [h1, h2]
    · rw [if_neg h2]
      by_cases h3 : expiry > now
      · rw [if_neg (by simpa using h3)]
        by_cases h4 : (s.healthRecords recordId).patientAddress = sender
        · rw [if_neg (by simpa using h4)]
          simp only [Except.ok.injEq, Prod.mk.injEq]
          constructor
          · rintro ⟨hs, hc⟩
            exact ⟨h1, h2, h3, h4, hs.symm, hc.symm⟩
          · rintro ⟨-, -, -, -, hs, hc⟩
            exact ⟨hs.symm, hc.symm⟩
        · rw [if_pos (by simpa using h4)]
          simp [h4]
      · rw [if_pos (by simpa using h3)]
        simp [h3]

theorem revokeConsent_ok_iff {s : ChainState} {sender : Address} {consentId : Nat}
    {s2 : ChainState} :
    revokeConsent s sender consentId = .ok s2 ↔
      (s.consents consentId).id ≠ 0 ∧
      (s.consents consentId).patientAddress = sender ∧
      s2 = revokedState s consentId := by
  unfold revokeConsent revokedState
  by_cases h1 : (s.consents consentId).id = 0
  · simp [h1]
  · rw [if_neg h1]
    by_cases h2 : (s.consents consentId).patientAddress = sender
    · rw [if_neg (by simpa using h2)]
      simp only [Except.ok.injEq]
      constructor
      · intro hs
        exact ⟨h1, h2, hs.symm⟩
      · rintro ⟨-, -, hs⟩
        exact hs.symm
    · rw [if_pos (by simpa using h2)]
      simp [h2]

theorem shareWrappedKeyHash_ok_iff {s : ChainState} {sender : Address}
    {recordId : Nat} {providerAddress : Address} {hash : String} {s2 : ChainState} :
    shareWrappedKeyHash s sender recordId providerAddress hash = .ok s2 ↔
      (s.healthRecords recordId).id ≠ 0 ∧
      (s.healthRecords recordId).patientAddress = sender ∧
      providerAddress ≠ zeroAddress ∧ hash ≠ "" ∧
      s2 = sharedKeyState s sender recordId providerAddress hash := by
  unfold shareWrappedKeyHash sharedKeyState
  by_cases h1 : (s.healthRecords recordId).id = 0
  · simp [h1]
  · rw [if_neg h1]
    by_cases h2 : (s.healthRecords recordId).patientAddress = sender
    · rw [if_neg (by simpa using h2)]
      by_cases h3 : providerAddress = zeroAddress
      · simp [h1, h2, h3]
      · rw [if_neg h3]
        by_cases h4 : hash = ""
        · simp [h4]
        · rw [if_neg h4]
          simp only [Except.ok.injEq]
          constructor
          · intro hs
            exact ⟨h1, h2, h3, h4, hs.symm⟩
          · rintro ⟨-, -, -, -, hs⟩
            exact hs.symm
    · rw [if_pos (by simpa using h2)]
      simp [h2]

theorem inv_initialState : Inv initialState := by
  refine ⟨?_, ?_, ?_⟩
  · intro i
    simp only [initialState, emptyConsent]
    rw [if_neg (by omega)]
  · intro i
    simp only [initialState, emptyRecord]
    rw [if_neg (by omega)]
  · intro i h1 h2
    simp only [initialState] at h2
    omega

theorem inv_grantedState {s : ChainState} (h : Inv s) {sender providerAddress : Address}
    {recordId : Nat} {purpose : String} {expiry : Nat}
    (hrec : (s.healthRecords recordId).id ≠ 0)
    (howner : (s.healthRecords recordId).patientAddress = sender) :
    Inv (grantedState s sender providerAddress recordId purpose expiry) := by
  have hrid : 1 ≤ recordId ∧ recordId ≤ s.recordCount := by
    have := h.record_id recordId
    by_contra hc
    rw [if_neg hc] at this
    exact hrec this
  refine ⟨?_, h.record_id, ?_⟩
  · intro i
    by_cases hi : i = s.consentCount + 1
    · subst hi
      simp only [grantedState, if_pos rfl]
      rw [if_pos (show 1 ≤ s.consentCount + 1 ∧ s.consentCount + 1 ≤ s.consentCount + 1 by omega)]
      simp
    · simp only [grantedState, if_neg hi]
      have := h.consent_id i
      by_cases hc : 1 ≤ i ∧ i ≤ s.consentCount
      · rw [if_pos hc] at this
        rw [this, if_pos (by omega)]
      · rw [if_neg hc] at this
        rw [this, if_neg (by omega)]
  · intro i h1 h2
    simp only [grantedState] at h2 ⊢
    by_cases hi : i = s.consentCount + 1
    · subst hi
      simp only [if_pos rfl]
      exact ⟨hrid.1, hrid.2, howner.symm⟩
    · simp only [if_neg hi]
      exact h.consent_link i h1 (by omega)

theorem inv_revokedState {s : ChainState} (h : Inv s) {consentId : Nat} :
    Inv (revokedState s consentId) := by
  refine ⟨?_, h.record_id, ?_⟩
  · intro i
    simp only [revokedState]
    by_cases hi : i = consentId
    · subst hi
      simp only [if_pos rfl]
      exact h.consent_id i
    · simp only [if_neg hi]
      exact h.consent_id i
  · intro i h1 h2
    simp only [revokedState] at h2 ⊢
    by_cases hi : i = consentId
    · subst hi
      simp only [if_pos rfl]
      exact h.consent_link i h1 h2
    · simp only [if_neg hi]
      exact h.consent_link i h1 h2

theorem inv_uploadRecord {s : ChainState} (h : Inv s) {sender : Address} {now : Nat}
    {title description dataHash : String} :
    Inv (uploadRecord s sender now title description dataHash).1 := by
  refine ⟨h.consent_id, ?_, ?_⟩
  · intro i
    simp only [uploadRecord]
    by_cases hi : i = s.recordCount + 1
    · subst hi
      simp only [if_pos rfl]
      rw [if_pos (show 1 ≤ s.recordCount + 1 ∧ s.recordCount + 1 ≤ s.recordCount + 1 by omega)]
      simp
    · simp only [if_neg hi]
      have := h.record_id i
      by_cases hc : 1 ≤ i ∧ i ≤ s.recordCount
      · rw [if_pos hc] at this
        rw [this, if_pos (by omega)]
      · rw [if_neg hc] at this
        rw [this, if_neg (by omega)]
  · intro i h1 h2
    simp only [uploadRecord] at h2 ⊢
    obtain ⟨l1, l2, l3⟩ := h.consent_link i h1 h2
    refine ⟨l1, by omega, ?_⟩
    rw [if_neg (by omega)]
    exact l3

theorem inv_sharedKeyState {s : ChainState} (h : Inv s) {sender : Address}
    {recordId : Nat} {providerAddress : Address} {hash : String} :
    Inv (sharedKeyState s sender recordId providerAddress hash) :=
  ⟨h.consent_id, h.record_id, h.consent_link⟩

theorem inv_applyOp {s : ChainState} (h : Inv s) (op : Op) : Inv (applyOp s op) := by
  cases op with
  | grant sender now providerAddress recordId purpose expiry =>
      simp only [applyOp]
      cases hg : grantConsent s sender now providerAddress recordId purpose expiry with
      | error e => exact h
      | ok p =>
          obtain ⟨s2, cid⟩ := p
          obtain ⟨hrec, -, -, howner, hs2, -⟩ := grantConsent_ok_iff.mp hg
          subst hs2
          exact inv_grantedState h hrec howner
  | revoke sender consentId =>
      simp only [applyOp]
      cases hg : revokeConsent s sender consentId with
      | error e => exact h
      | ok s2 =>
          obtain ⟨-, -, hs2⟩ := revokeConsent_ok_iff.mp hg
          subst hs2
          exact inv_revokedState h
  | upload sender now title description dataHash =>
      simp only [applyOp]
      exact inv_uploadRecord h
  | shareKey sender recordId providerAddress hash =>
      simp only [applyOp]
      cases hg : shareWrappedKeyHash s sender recordId providerAddress hash with
      | error e => exact h
      | ok s2 =>
          obtain ⟨-, -, -, -, hs2⟩ := shareWrappedKeyHash_ok_iff.mp hg
          subst hs2
          exact inv_sharedKeyState h

theorem inv_execOps {s : ChainState} (h : Inv s) (ops : List Op) :
    Inv (execOps s ops) := by
  induction ops generalizing s with
  | nil => exact h
  | cons op rest ih => exact ih (inv_applyOp h op)

theorem inv_reachable {s : ChainState} (h : Reachable s) : Inv s := by
  obtain ⟨ops, rfl⟩ := h
  exact inv_execOps inv_initialState ops

theorem consentCount_applyOp_mono (s : ChainState) (op : Op) :
    s.consentCount ≤ (applyOp s op).consentCount := by
  cases op with
  | grant sender now providerAddress recordId purpose expiry =>
      simp only [applyOp]
      cases hg : grantConsent s sender now providerAddress recordId purpose expiry with
      | error e => exact le_refl _
      | ok p =>
          obtain ⟨s2, cid⟩ := p
          obtain ⟨-, -, -, -, hs2, -⟩ := grantConsent_ok_iff.mp hg
          subst hs2
          simp [grantedState]
  | revoke sender consentId =>
      simp only [applyOp]
      cases hg : revokeConsent s sender consentId with
      | error e => exact le_refl _
      | ok s2 =>
          obtain ⟨-, -, hs2⟩ := revokeConsent_ok_iff.mp hg
          subst hs2
          exact le_refl _
  | upload sender now title description dataHash => exact le_refl _
  | shareKey sender recordId providerAddress hash =>
      simp only [applyOp]
      cases hg : shareWrappedKeyHash s sender recordId providerAddress hash with
      | error e => exact le_refl _
      | ok s2 =>
          obtain ⟨-, -, -, -, hs2⟩ := shareWrappedKeyHash_ok_iff.mp hg
          subst hs2
          exact le_refl _

/-- Once a stored consent is inactive, no single write call reactivates it:
`grantConsent` only writes a fresh id above the counter and `revokeConsent`
only clears the flag. -/
theorem inactive_applyOp {s : ChainState} (hcid : cid ≤ s.consentCount)
    (hin : (s.consents cid).isActive = false) (op : Op) :
    ((applyOp s op).consents cid).isActive = false := by
  cases op with
  | grant sender now providerAddress recordId purpose expiry =>
      simp only [applyOp]
      cases hg : grantConsent s sender now providerAddress recordId purpose expiry with
      | error e => exact hin
      | ok p =>
          obtain ⟨s2, c⟩ := p
          obtain ⟨-, -, -, -, hs2, -⟩ := grantConsent_ok_iff.mp hg
          subst hs2
          simp only [grantedState]
          rw [if_neg (by omega)]
          exact hin
  | revoke sender consentId =>
      simp only [applyOp]
      cases hg : revokeConsent s sender consentId with
      | error e => exact hin
      | ok s2 =>
          obtain ⟨-, -, hs2⟩ := revokeConsent_ok_iff.mp hg
          subst hs2
          simp only [revokedState]
          by_cases hi : cid = consentId
          · rw [if_pos hi]
          · rw [if_neg hi]
            exact hin
  | upload sender now title description dataHash => exact hin
  | shareKey sender recordId providerAddress hash =>
      simp only [applyOp]
      cases hg : shareWrappedKeyHash s sender recordId providerAddress hash with
      | error e => exact hin
      | ok s2 =>
          obtain ⟨-, -, -, -, hs2⟩ := shareWrappedKeyHash_ok_iff.mp hg
          subst hs2
          exact hin

/-- Revocation is one-way across any sequence of write calls. -/
theorem inactive_execOps {s : ChainState} (hcid : cid ≤ s.consentCount)
    (hin : (s.consents cid).isActive = false) (ops : List Op) :
    ((execOps s ops).consents cid).isActive = false := by
  induction ops generalizing s with
  | nil => exact hin
  | cons op rest ih =>
      exact ih (le_trans hcid (consentCount_applyOp_mono s op)) (inactive_applyOp hcid hin op)

end HealthData

namespace Client

open HealthData

theorem decryptData_encryptData {C : AeadCipher} (hC : C.Correct)
    (key iv data : Bytes) (hiv : iv.length = IV_LENGTH_BYTES) :
    decryptData C (iv ++ C.encryptRaw key iv data) key = some data := by
  unfold decryptData
  have hct := hC.length_encryptRaw key iv data
  rw [if_neg (by simp only [List.length_append, hiv, hct, IV_LENGTH_BYTES]; omega)]
  rw [← hiv, List.take_left, List.drop_left]
  exact hC.roundtrip key iv data

theorem hexCharVal_hexDigitChar : ∀ d < 16, hexCharVal (hexDigitChar d) = some d := by
  decide

theorem hexCharsToBytes_bytesToHexChars {bs : Bytes} (h : ∀ b ∈ bs, b < 256) :
    hexCharsToBytes (bytesToHexChars bs) = bs := by
  induction bs with
  | nil => rfl
  | cons b rest ih =>
      have hb : b < 256 := h b (List.mem_cons_self b rest)
      have hhi : hexCharVal (hexDigitChar (b / 16)) = some (b / 16) :=
        hexCharVal_hexDigitChar (b / 16) (by omega)
      have hlo : hexCharVal (hexDigitChar (b % 16)) = some (b % 16) :=
        hexCharVal_hexDigitChar (b % 16) (by omega)
      simp only [bytesToHexChars, byteToHexChars, List.cons_append, List.nil_append,
        hexCharsToBytes, hhi, hlo]
      show (16 * (b / 16) + b % 16) :: hexCharsToBytes (bytesToHexChars rest) = b :: rest
      rw [ih (fun x hx => h x (List.mem_cons_of_mem b hx))]
      congr 1
      omega

theorem dropWhile_eq_self_of_all_neg {p : Char → Bool} {l : List Char}
    (h : ∀ c ∈ l, p c = false) : l.dropWhile p = l := by
  induction l with
  | nil => rfl
  | cons c rest ih =>
      rw [List.dropWhile_cons, if_neg (by simp [h c (List.mem_cons_self c rest)])]

theorem trimChars_eq_self {cs : List Char}
    (h : ∀ c ∈ cs, isJsWhitespaceChar c = false) : trimChars cs = cs := by
  unfold trimChars
  rw [dropWhile_eq_self_of_all_neg h,
      dropWhile_eq_self_of_all_neg (fun c hc => h c (List.mem_reverse.mp hc)),
      List.reverse_reverse]

theorem isHexDigit_toNat_bounds {c : Char} (h : isHexDigit c = true) :
    48 ≤ c.toNat ∧ c.toNat ≤ 102 := by
  unfold isHexDigit hexCharVal at h
  split_ifs at h with h1 h2 h3
  · omega
  · omega
  · omega
  · simp at h

theorem not_ws_of_isHexDigit {c : Char} (h : isHexDigit c = true) :
    isJsWhitespaceChar c = false := by
  obtain ⟨hlo, hhi⟩ := isHexDigit_toNat_bounds h
  unfold isJsWhitespaceChar
  simp only [decide_eq_false_iff_not]
  omega

theorem isHexDigit_hexDigitChar : ∀ d < 16, isHexDigit (hexDigitChar d) = true := by
  decide

theorem all_isHexDigit_bytesToHexChars {bs : Bytes} (h : ∀ b ∈ bs, b < 256) :
    ∀ c ∈ bytesToHexChars bs, isHexDigit c = true := by
  induction bs with
  | nil => intro c hc; simp [bytesToHexChars] at hc
  | cons b rest ih =>
      intro c hc
      have hb : b < 256 := h b (List.mem_cons_self b rest)
      simp only [bytesToHexChars, byteToHexChars, List.cons_append, List.nil_append,
        List.mem_cons] at hc
      rcases hc with rfl | rfl | hc
      · exact isHexDigit_hexDigitChar _ (by omega)
      · exact isHexDigit_hexDigitChar _ (by omega)
      · exact ih (fun x hx => h x (List.mem_cons_of_mem b hx)) c hc

theorem startsWith0x_bytesToHexChars_eq_false {bs : Bytes} (h : ∀ b ∈ bs, b < 256) :
    startsWith0x (bytesToHexChars bs) = false := by
  cases bs with
  | nil => rfl
  | cons b rest =>
      unfold startsWith0x
      simp only [bytesToHexChars, byteToHexChars, List.cons_append, List.nil_append,
        List.take, decide_eq_false_iff_not]
      intro hcontra
      have hx : hexDigitChar (b % 16) = 'x' := by
        have := congrArg (fun l => l.get? 1) hcontra
        simpa using this
      have : isHexDigit (hexDigitChar (b % 16)) = true :=
        isHexDigit_hexDigitChar _ (by omega)
      rw [hx] at this
      exact absurd this (by decide)

theorem strip0x_eq_self {cs : List Char} (h : startsWith0x cs = false) :
    strip0x cs = cs := by
  unfold strip0x
  rw [if_neg (by simp [h])]

theorem strip0x_prefix0x {cs : List Char} (h : startsWith0x cs = false) :
    strip0x (prefix0x cs) = cs := by
  unfold prefix0x
  rw [if_neg (by simp [h])]
  unfold strip0x
  rw [if_pos (by rfl)]
  rfl

theorem fetchFromIPFS_uploadToIPFS (store : IpfsStore) (content : String) :
    fetchFromIPFS (uploadToIPFS store content).2 (uploadToIPFS store content).1 =
      some content := by
  simp [fetchFromIPFS, uploadToIPFS, List.find?]

theorem uploadToIPFS_cid_ne_empty (store : IpfsStore) (content : String) :
    (uploadToIPFS store content).1 ≠ "" := by
  intro h
  have := congrArg String.data h
  simp [uploadToIPFS] at this

end Client

/-- C2: the client-side access evaluation returns Allow exactly when some
consent in the list matches the record, matches the requester
case-insensitively, is active and satisfies `expires_at >= now`; and for a
single matching active consent expiring at `T`, evaluation at `T` allows
and at `T + 1` denies. -/
theorem C2_client_evaluator (now targetRecordId : Nat) (providerAddress : String)
    (relevantConsents : List ConsentRecord) (c : ConsentRecord)
    (hrec : c.recordId = targetRecordId)
    (hprov : toLowerCase c.providerAddress = toLowerCase providerAddress)
    (hact : c.isActive = true) :
    (checkProviderAccessForRecordClientSide now targetRecordId providerAddress
        relevantConsents = true ↔
      ∃ consent ∈ relevantConsents,
        toLowerCase consent.providerAddress = toLowerCase providerAddress ∧
        consent.recordId = targetRecordId ∧
        consent.isActive = true ∧
        now ≤ consent.expiryDate) ∧
    checkProviderAccessForRecordClientSide c.expiryDate targetRecordId
      providerAddress [c] = true ∧
    checkProviderAccessForRecordClientSide (c.expiryDate + 1) targetRecordId
      providerAddress [c] = false := by
  refine ⟨?_, ?_, ?_⟩
  · unfold checkProviderAccessForRecordClientSide
    by_cases hl : relevantConsents.isEmpty
    · rw [if_pos hl]
      rw [List.isEmpty_iff.mp hl]
      simp
    · rw [if_neg hl]
      simp only [List.any_eq_true, decide_eq_true_eq]
  · unfold checkProviderAccessForRecordClientSide
    simp [hprov, hrec, hact]
  · unfold checkProviderAccessForRecordClientSide
    simp only [List.isEmpty_cons, List.any_cons, List.any_nil, Bool.or_false]
    rw [if_neg (by simp)]
    simp only [decide_eq_false_iff_not]
    rintro ⟨-, -, -, h4⟩
    omega

/-- C2 witness: the concrete consent evaluated for requester `0xb`
(case-insensitive match) at times 40, 50 and 51. -/
theorem C2_witness :
    (checkProviderAccessForRecordClientSide 40 1 "0xb" [consentFixture] = true ↔
      ∃ consent ∈ [consentFixture],
        toLowerCase consent.providerAddress = toLowerCase "0xb" ∧
        consent.recordId = 1 ∧
        consent.isActive = true ∧
        40 ≤ consent.expiryDate) ∧
    checkProviderAccessForRecordClientSide consentFixture.expiryDate 1 "0xb"
      [consentFixture] = true ∧
    checkProviderAccessForRecordClientSide (consentFixture.expiryDate + 1) 1 "0xb"
      [consentFixture] = false :=
  C2_client_evaluator 40 1 "0xb" [consentFixture] consentFixture rfl (by decide) rfl

/-- C3: for a non-empty plaintext, encryption succeeds and decrypting the
wire form (the fresh fixed-length nonce concatenated before the ciphertext)
with the same key returns exactly the plaintext. -/
theorem C3_cipher_roundtrip (C : AeadCipher) (hC : C.Correct) (p key iv : Bytes)
    (hp : p ≠ []) (hiv : iv.length = IV_LENGTH_BYTES) :
    ∃ r, encryptData C iv p key = some r ∧ r.iv = iv ∧
      decryptData C (r.iv ++ r.encryptedData) key = some p := by
  refine ⟨{ encryptedData := C.encryptRaw key iv p, iv := iv }, ?_, rfl, ?_⟩
  · unfold encryptData
    rw [if_neg (by simp [hp])]
  · exact decryptData_encryptData hC key iv p hiv

theorem padCipher_correct : padCipher.Correct := by
  constructor
  · intro key iv data
    simp [padCipher, List.take_left]
  · intro key iv data
    simp [padCipher]

/-- C3 witness: the roundtrip at the concrete plaintext `[1, 2, 3]`. -/
theorem C3_witness :
    ∃ r, encryptData padCipher (List.replicate 12 0) [1, 2, 3] [7] = some r ∧
      r.iv = List.replicate 12 0 ∧
      decryptData padCipher (r.iv ++ r.encryptedData) [7] = some [1, 2, 3] :=
  C3_cipher_roundtrip padCipher padCipher_correct [1, 2, 3] [7]
    (List.replicate 12 0) (by decide) (by decide)

/-- C5: after two sequential successful shares for the same
`(recordId, providerAddress)` pair, the stored pointer is the second one
(and after one share, the first); every other pair is unchanged; and any
successful pointer read returns exactly the latest pointer. -/
theorem C5_last_write_wins (s s1 s2 : ChainState) (sender1 sender2 : Address)
    (recordId : Nat) (providerAddress : Address) (hash1 hash2 : String)
    (h1 : shareWrappedKeyHash s sender1 recordId providerAddress hash1 = .ok s1)
    (h2 : shareWrappedKeyHash s1 sender2 recordId providerAddress hash2 = .ok s2) :
    s1.wrappedKeyIpfsHashes recordId providerAddress = hash1 ∧
    s2.wrappedKeyIpfsHashes recordId providerAddress = hash2 ∧
    (∀ r p, ¬(r = recordId ∧ p = providerAddress) →
      s2.wrappedKeyIpfsHashes r p = s.wrappedKeyIpfsHashes r p) ∧
    (∀ now caller h, getWrappedKeyHash s2 now caller recordId providerAddress = .ok h →
      h = hash2) := by
  obtain ⟨-, -, -, -, hs1⟩ := shareWrappedKeyHash_ok_iff.mp h1
  obtain ⟨-, -, -, -, hs2⟩ := shareWrappedKeyHash_ok_iff.mp h2
  subst hs1
  subst hs2
  refine ⟨?_, ?_, ?_, ?_⟩
  · simp [sharedKeyState]
  · simp [sharedKeyState]
  · intro r p hne
    simp only [sharedKeyState]
    rw [if_neg hne, if_neg hne]
  · intro now caller h hok
    unfold getWrappedKeyHash at hok
    split at hok
    · exact Except.noConfusion hok
    · split at hok
      · exact Except.noConfusion hok
      · split at hok
        · exact Except.noConfusion hok
        · injection hok with hh
          rw [← hh]
          simp [sharedKeyState]

/-- C5 witness: two concrete shares for `(1, 0xb)` on the one-record
ledger. -/
theorem C5_witness :
    (sharedKeyState stateWithRecord "0xa" 1 "0xb" "QmK1").wrappedKeyIpfsHashes 1 "0xb"
        = "QmK1" ∧
    (sharedKeyState (sharedKeyState stateWithRecord "0xa" 1 "0xb" "QmK1")
        "0xa" 1 "0xb" "QmK2").wrappedKeyIpfsHashes 1 "0xb" = "QmK2" ∧
    (∀ r p, ¬(r = 1 ∧ p = "0xb") →
      (sharedKeyState (sharedKeyState stateWithRecord "0xa" 1 "0xb" "QmK1")
          "0xa" 1 "0xb" "QmK2").wrappedKeyIpfsHashes r p =
        stateWithRecord.wrappedKeyIpfsHashes r p) ∧
    (∀ now caller h,
      getWrappedKeyHash (sharedKeyState (sharedKeyState stateWithRecord "0xa" 1 "0xb" "QmK1")
          "0xa" 1 "0xb" "QmK2") now caller 1 "0xb" = .ok h → h = "QmK2") :=
  C5_last_write_wins stateWithRecord _ _ "0xa" "0xa" 1 "0xb" "QmK1" "QmK2" rfl rfl

/-- C8 counterexample: on the concrete ledger where consent 1 is already
revoked, a second successful revoke emits another observable
`ConsentRevoked` event, against the claim that no new revocation event is
observable beyond the original one. -/
theorem C8_counterexample :
    (stateRevokedOnce.consents 1).isActive = false ∧
    revokeConsent stateRevokedOnce "0xa" 1 = .ok (revokedState stateRevokedOnce 1) ∧
    (revokedState stateRevokedOnce 1).events =
      stateRevokedOnce.events ++ [.ConsentRevoked 1] ∧
    stateRevokedOnce.events.count (Event.ConsentRevoked 1) = 1 ∧
    (revokedState stateRevokedOnce 1).events.count (Event.ConsentRevoked 1) = 2 := by
  refine ⟨by decide, rfl, rfl, by decide, by decide⟩

/-- C8 amended: `revokeConsent` fails with the not-found error when no
consent with the id exists and with the not-the-patient error when the
caller is not the consent's owner; otherwise it succeeds — also on an
already-inactive consent — leaving the consent inactive, but it emits a
fresh `ConsentRevoked` event on every successful call, so a repeated
revocation is observable as a new event. -/
theorem C8_revoke_errors (s : ChainState) (sender : Address) (consentId : Nat) :
    ((s.consents consentId).id = 0 →
      revokeConsent s sender consentId = .error .ConsentNotFound) ∧
    ((s.consents consentId).id ≠ 0 → (s.consents consentId).patientAddress ≠ sender →
      revokeConsent s sender consentId = .error .NotPatient) ∧
    ((s.consents consentId).id ≠ 0 → (s.consents consentId).patientAddress = sender →
      revokeConsent s sender consentId = .ok (revokedState s consentId) ∧
      ((revokedState s consentId).consents consentId).isActive = false ∧
      (revokedState s consentId).events = s.events ++ [.ConsentRevoked consentId]) := by
  refine ⟨?_, ?_, ?_⟩
  · intro h0
    unfold revokeConsent
    rw [if_pos h0]
  · intro h0 hown
    unfold revokeConsent
    rw [if_neg h0, if_pos (by simpa using hown)]
  · intro h0 hown
    refine ⟨revokeConsent_ok_iff.mpr ⟨h0, hown, rfl⟩, ?_, rfl⟩
    simp [revokedState]

/-- C8 witness: the amended behavior on the concrete already-revoked
consent. -/
theorem C8_witness :
    revokeConsent stateRevokedOnce "0xa" 1 = .ok (revokedState stateRevokedOnce 1) ∧
    ((revokedState stateRevokedOnce 1).consents 1).isActive = false ∧
    (revokedState stateRevokedOnce 1).events =
      stateRevokedOnce.events ++ [.ConsentRevoked 1] :=
  (C8_revoke_errors stateRevokedOnce "0xa" 1).2.2 (by decide) (by decide)

/-- C10: on every reachable ledger state, consent ids are exactly
`1..consentCount` (consecutive from 1), each stored consent's id equals the
key it is stored under, id 0 is never assigned and marks absence, and the
existence checks (`id != 0` on chain, `id === 0` mapped to `null` in the
client facade) are sound. -/
theorem C10_consent_id_invariant (s : ChainState) (hs : Reachable s) :
    (∀ i, 1 ≤ i → i ≤ s.consentCount → (s.consents i).id = i) ∧
    (∀ i, (s.consents i).id = 0 ↔ ¬(1 ≤ i ∧ i ≤ s.consentCount)) ∧
    (∀ i, getConsentById s i = .error .ConsentNotFound ↔ (s.consents i).id = 0) ∧
    (∀ i, getConsentDetailsById s i = none ↔ (s.consents i).id = 0) := by
  have hInv := inv_reachable hs
  have hid := hInv.consent_id
  refine ⟨?_, ?_, ?_, ?_⟩
  · intro i h1 h2
    rw [hid i, if_pos ⟨h1, h2⟩]
  · intro i
    constructor
    · intro h0 hc
      rw [hid i, if_pos hc] at h0
      omega
    · intro hc
      rw [hid i, if_neg hc]
  · intro i
    constructor
    · intro h
      unfold getConsentById at h
      by_cases h0 : (s.consents i).id = 0
      · exact h0
      · rw [if_neg h0] at h
        exact Except.noConfusion h
    · intro h0
      unfold getConsentById
      rw [if_pos h0]
  · intro i
    constructor
    · intro h
      unfold getConsentDetailsById getConsentById at h
      by_cases h0 : (s.consents i).id = 0
      · exact h0
      · rw [if_neg h0] at h
        simp only at h
        rw [if_neg h0] at h
        exact Option.noConfusion h
    · intro h0
      unfold getConsentDetailsById getConsentById
      rw [if_pos h0]

/-- C10 witness: the invariant instantiated on the concrete one-consent
ledger. -/
theorem C10_witness :
    (∀ i, 1 ≤ i → i ≤ stateWithConsent.consentCount →
      (stateWithConsent.consents i).id = i) ∧
    (∀ i, (stateWithConsent.consents i).id = 0 ↔
      ¬(1 ≤ i ∧ i ≤ stateWithConsent.consentCount)) ∧
    (∀ i, getConsentById stateWithConsent i = .error .ConsentNotFound ↔
      (stateWithConsent.consents i).id = 0) ∧
    (∀ i, getConsentDetailsById stateWithConsent i = none ↔
      (stateWithConsent.consents i).id = 0) :=
  C10_consent_id_invariant stateWithConsent
    ⟨[.upload "0xa" 10 "title" "desc" "QmData", .grant "0xa" 11 "0xb" 1 "care" 100], rfl⟩

/-- C4: once a revoke has succeeded on a reachable ledger, no later
sequence of write calls ever sets the consent's active flag back to true,
and evaluating access with just that consent denies at every time (also
before the original expiry); when the consent belongs to the evaluated
provider, the status classifier reports it as Revoked. -/
theorem C4_revocation_one_way (pre : List Op) (sender : Address) (consentId : Nat)
    (s2 : ChainState)
    (hrev : revokeConsent (execOps initialState pre) sender consentId = .ok s2)
    (post : List Op) (now targetRecordId : Nat) (user : String) :
    ((execOps s2 post).consents consentId).isActive = false ∧
    checkProviderAccessForRecordClientSide now targetRecordId user
      [(execOps s2 post).consents consentId] = false ∧
    (toLowerCase ((execOps s2 post).consents consentId).providerAddress =
        toLowerCase user →
      consentStatusBadge now user ((execOps s2 post).consents consentId) = .Revoked) := by
  have hInv : Inv (execOps initialState pre) := inv_execOps inv_initialState pre
  obtain ⟨hex, -, hs2⟩ := revokeConsent_ok_iff.mp hrev
  have hcid : 1 ≤ consentId ∧ consentId ≤ (execOps initialState pre).consentCount := by
    have := hInv.consent_id consentId
    by_contra hc
    rw [if_neg hc] at this
    exact hex this
  have hin : (s2.consents consentId).isActive = false := by
    subst hs2
    simp [revokedState]
  have hle : consentId ≤ s2.consentCount := by
    subst hs2
    exact hcid.2
  have hmain : ((execOps s2 post).consents consentId).isActive = false :=
    inactive_execOps hle hin post
  refine ⟨hmain, ?_, ?_⟩
  · unfold checkProviderAccessForRecordClientSide
    simp only [List.isEmpty_cons, List.any_cons, List.any_nil, Bool.or_false]
    rw [if_neg (by simp)]
    simp only [decide_eq_false_iff_not]
    rintro ⟨-, -, hact, -⟩
    rw [hmain] at hact
    exact Bool.false_ne_true hact
  · intro hmatch
    unfold consentStatusBadge
    rw [if_neg (by simpa using hmatch), if_pos hmain]

/-- C4 witness: revoke the concrete consent 1 before its expiry 100 and
evaluate at time 50 after one more unrelated write call. -/
theorem C4_witness :
    ((execOps (revokedState stateWithConsent 1)
        [.upload "0xc" 20 "t2" "d2" "QmOther"]).consents 1).isActive = false ∧
    checkProviderAccessForRecordClientSide 50 1 "0xb"
      [(execOps (revokedState stateWithConsent 1)
          [.upload "0xc" 20 "t2" "d2" "QmOther"]).consents 1] = false ∧
    (toLowerCase ((execOps (revokedState stateWithConsent 1)
          [.upload "0xc" 20 "t2" "d2" "QmOther"]).consents 1).providerAddress =
        toLowerCase "0xb" →
      consentStatusBadge 50 "0xb"
        ((execOps (revokedState stateWithConsent 1)
            [.upload "0xc" 20 "t2" "d2" "QmOther"]).consents 1) = .Revoked) :=
  C4_revocation_one_way
    [.upload "0xa" 10 "title" "desc" "QmData", .grant "0xa" 11 "0xb" 1 "care" 100]
    "0xa" 1 (revokedState stateWithConsent 1) rfl
    [.upload "0xc" 20 "t2" "d2" "QmOther"] 50 1 "0xb"

/-- C7 counterexample: on the concrete one-record ledger, the record exists,
the caller is its owner and the expiry is in the future — the three
preconditions of the claim all hold — yet `grantConsent` for the zero
provider address reverts instead of returning a fresh consent id. -/
theorem C7_counterexample :
    (stateWithRecord.healthRecords 1).id ≠ 0 ∧
    (stateWithRecord.healthRecords 1).patientAddress = "0xa" ∧
    (100 : Nat) > 11 ∧
    grantConsent stateWithRecord "0xa" 11 zeroAddress 1 "care" 100 =
      .error .InvalidProviderAddress :=
  ⟨by decide, by decide, by decide, rfl⟩

/-- C7 amended: `grantConsent` checks, in order, record existence
(RecordNotFound), a non-zero provider address (InvalidProvider), a strictly
future expiry (InvalidExpiry) and record ownership (NotOwner); when all
four preconditions hold it stores a consent with all fields set and
`active = true` under the fresh id `consentCount + 1` — an id no existing
consent carries — leaving all other consents unchanged; any failure leaves
the ledger state unchanged. -/
theorem C7_grant_errors (s : ChainState) (hInv : Inv s) (sender : Address)
    (now : Nat) (providerAddress : Address) (recordId : Nat) (purpose : String)
    (expiry : Nat) :
    ((s.healthRecords recordId).id = 0 →
      grantConsent s sender now providerAddress recordId purpose expiry =
        .error .RecordNotFound) ∧
    ((s.healthRecords recordId).id ≠ 0 → providerAddress = zeroAddress →
      grantConsent s sender now providerAddress recordId purpose expiry =
        .error .InvalidProviderAddress) ∧
    ((s.healthRecords recordId).id ≠ 0 → providerAddress ≠ zeroAddress →
      expiry ≤ now →
      grantConsent s sender now providerAddress recordId purpose expiry =
        .error .ExpiryNotFuture) ∧
    ((s.healthRecords recordId).id ≠ 0 → providerAddress ≠ zeroAddress →
      now < expiry → (s.healthRecords recordId).patientAddress ≠ sender →
      grantConsent s sender now providerAddress recordId purpose expiry =
        .error .NotRecordOwner) ∧
    ((s.healthRecords recordId).id ≠ 0 → providerAddress ≠ zeroAddress →
      now < expiry → (s.healthRecords recordId).patientAddress = sender →
      grantConsent s sender now providerAddress recordId purpose expiry =
        .ok (grantedState s sender providerAddress recordId purpose expiry,
             s.consentCount + 1) ∧
      (s.consents (s.consentCount + 1)).id = 0 ∧
      (∀ i, 1 ≤ i → i ≤ s.consentCount → (s.consents i).id ≠ s.consentCount + 1) ∧
      (grantedState s sender providerAddress recordId purpose expiry).consents
          (s.consentCount + 1) =
        { id := s.consentCount + 1, patientAddress := sender,
          providerAddress := providerAddress, recordId := recordId,
          purpose := purpose, expiryDate := expiry, isActive := true } ∧
      (∀ i, i ≠ s.consentCount + 1 →
        (grantedState s sender providerAddress recordId purpose expiry).consents i =
          s.consents i)) ∧
    (∀ e, grantConsent s sender now providerAddress recordId purpose expiry = .error e →
      applyOp s (.grant sender now providerAddress recordId purpose expiry) = s) := by
  refine ⟨?_, ?_, ?_, ?_, ?_, ?_⟩
  · intro h1
    unfold grantConsent
    rw [if_pos h1]
  · intro h1 h2
    unfold grantConsent
    rw [if_neg h1, if_pos h2]
  · intro h1 h2 h3
    unfold grantConsent
    rw [if_neg h1, if_neg h2, if_pos (by simpa using h3)]
  · intro h1 h2 h3 h4
    unfold grantConsent
    rw [if_neg h1, if_neg h2, if_neg (by simpa using h3), if_pos (by simpa using h4)]
  · intro h1 h2 h3 h4
    refine ⟨grantConsent_ok_iff.mpr ⟨h1, h2, h3, h4, rfl, rfl⟩, ?_, ?_, ?_, ?_⟩
    · rw [hInv.consent_id, if_neg (by omega)]
    · intro i hi1 hi2
      rw [hInv.consent_id, if_pos ⟨hi1, hi2⟩]
      omega
    · simp [grantedState]
    · intro i hi
      simp only [grantedState]
      rw [if_neg hi]
  · intro e he
    simp only [applyOp, he]

/-- C7 witness: the success branch on the concrete one-record ledger. -/
theorem C7_witness :
    grantConsent stateWithRecord "0xa" 11 "0xb" 1 "care" 100 =
      .ok (grantedState stateWithRecord "0xa" "0xb" 1 "care" 100,
           stateWithRecord.consentCount + 1) ∧
    (stateWithRecord.consents (stateWithRecord.consentCount + 1)).id = 0 ∧
    (∀ i, 1 ≤ i → i ≤ stateWithRecord.consentCount →
      (stateWithRecord.consents i).id ≠ stateWithRecord.consentCount + 1) ∧
    (grantedState stateWithRecord "0xa" "0xb" 1 "care" 100).consents
        (stateWithRecord.consentCount + 1) =
      { id := stateWithRecord.consentCount + 1, patientAddress := "0xa",
        providerAddress := "0xb", recordId := 1, purpose := "care",
        expiryDate := 100, isActive := true } ∧
    (∀ i, i ≠ stateWithRecord.consentCount + 1 →
      (grantedState stateWithRecord "0xa" "0xb" 1 "care" 100).consents i =
        stateWithRecord.consents i) :=
  (C7_grant_errors stateWithRecord
      (inv_execOps inv_initialState [.upload "0xa" 10 "title" "desc" "QmData"])
      "0xa" 11 "0xb" 1 "care" 100).2.2.2.2.1
    (by decide) (by decide) (by omega) (by decide)

/-- C9: the deny classification ranks a provider mismatch above Revoked,
Revoked above Expired, and reports not-found exactly when the consent id
resolves to nothing; and the Allow decision of the classifier coincides
with the client-side evaluator that gates record viewing and key recovery
(on the consent's own record) and with the `canViewAssociatedRecord`
gate, so the call sites cannot diverge. -/
theorem C9_deny_priority (now : Nat) (user : String) (c : ConsentRecord)
    (s : ChainState) (consentId : Nat) :
    (toLowerCase c.providerAddress ≠ toLowerCase user →
      consentStatusBadge now user c = .BelongsToOtherProvider) ∧
    (toLowerCase c.providerAddress = toLowerCase user → c.isActive = false →
      consentStatusBadge now user c = .Revoked) ∧
    (toLowerCase c.providerAddress = toLowerCase user → c.isActive = true →
      c.expiryDate < now → consentStatusBadge now user c = .Expired) ∧
    (viewConsentOutcome s now user consentId = .NotFound ↔
      getConsentDetailsById s consentId = none) ∧
    (consentStatusBadge now user c = .ActiveValid ↔
      checkProviderAccessForRecordClientSide now c.recordId user [c] = true) ∧
    (consentStatusBadge now user c = .ActiveValid ↔
      isConsentValidNow now (some c) (some user) = true) ∧
    (toLowerCase c.providerAddress = toLowerCase user →
      ((consentStatusBadge now user c = .ActiveValid ↔ consentListBadge now c = .Active) ∧
       (consentStatusBadge now user c = .Revoked ↔ consentListBadge now c = .Revoked) ∧
       (consentStatusBadge now user c = .Expired ↔ consentListBadge now c = .Expired))) := by
  have hbadge : ∀ hm : toLowerCase c.providerAddress = toLowerCase user,
      consentStatusBadge now user c =
        if c.isActive = false then .Revoked
        else if c.expiryDate < now then .Expired else .ActiveValid := by
    intro hm
    unfold consentStatusBadge
    rw [if_neg (by simpa using hm)]
  refine ⟨?_, ?_, ?_, ?_, ?_, ?_, ?_⟩
  · intro hne
    unfold consentStatusBadge
    rw [if_pos (by simpa using hne)]
  · intro hm hrev
    rw [hbadge hm, if_pos hrev]
  · intro hm hact hexp
    rw [hbadge hm, if_neg (by simp [hact]), if_pos hexp]
  · unfold viewConsentOutcome
    cases h : getConsentDetailsById s consentId with
    | none => simp
    | some c2 => simp
  · by_cases hm : toLowerCase c.providerAddress = toLowerCase user <;>
      cases hact : c.isActive <;>
      by_cases hexp : c.expiryDate < now <;>
      simp [consentStatusBadge, checkProviderAccessForRecordClientSide,
        hm, hact, hexp] <;>
      omega
  · by_cases hm : toLowerCase c.providerAddress = toLowerCase user <;>
      cases hact : c.isActive <;>
      by_cases hexp : c.expiryDate < now <;>
      simp [consentStatusBadge, isConsentValidNow, hm, hact, hexp] <;>
      omega
  · intro hm
    cases hact : c.isActive <;>
      by_cases hexp : c.expiryDate < now <;>
      simp [consentStatusBadge, consentListBadge, isConsentActiveNow,
        hm, hact, hexp] <;>
      first
        | omega
        | (split <;> simp)

/-- C9 witness: the priority chain and evaluator agreement on the concrete
consent, including the not-found case for the unused id 99. -/
theorem C9_witness :
    consentStatusBadge 200 "0xb" consentFixture = .Expired ∧
    (viewConsentOutcome stateWithConsent 50 "0xb" 99 = .NotFound ↔
      getConsentDetailsById stateWithConsent 99 = none) ∧
    (consentStatusBadge 40 "0xb" consentFixture = .ActiveValid ↔
      checkProviderAccessForRecordClientSide 40 consentFixture.recordId "0xb"
        [consentFixture] = true) := by
  refine ⟨?_, ?_, ?_⟩
  · exact (C9_deny_priority 200 "0xb" consentFixture stateWithConsent 99).2.2.1
      (by decide) (by decide) (by decide)
  · exact (C9_deny_priority 200 "0xb" consentFixture stateWithConsent 99).2.2.2.1
  · exact (C9_deny_priority 40 "0xb" consentFixture stateWithConsent 99).2.2.2.2.1

theorem consentValidFor_of_hasValidConsent {s : ChainState} {now recordId : Nat}
    {providerAddress : Address}
    (h : hasValidConsent s now recordId providerAddress = true) :
    ConsentValidFor s now recordId providerAddress := by
  unfold hasValidConsent at h
  simp only [List.any_eq_true, List.mem_range, decide_eq_true_eq] at h
  obtain ⟨j, hj, -, h2, h3, h4, h5⟩ := h
  exact ⟨j + 1, by omega, by omega, h3, h2, h4, h5⟩

theorem getWrappedKeyHash_ok_iff {s : ChainState} {now : Nat} {sender : Address}
    {recordId : Nat} {providerAddress : Address} {h : String} :
    getWrappedKeyHash s now sender recordId providerAddress = .ok h ↔
      (s.healthRecords recordId).id ≠ 0 ∧ providerAddress = sender ∧
      hasValidConsent s now recordId providerAddress = true ∧
      h = s.wrappedKeyIpfsHashes recordId providerAddress := by
  unfold getWrappedKeyHash
  by_cases h1 : (s.healthRecords recordId).id = 0
  · simp [h1]
  · rw [if_neg h1]
    by_cases h2 : providerAddress = sender
    · rw [if_neg (by simpa using h2)]
      by_cases h3 : hasValidConsent s now recordId providerAddress = true
      · rw [if_neg (by simpa using h3)]
        simp only [Except.ok.injEq]
        constructor
        · intro hh
          exact ⟨h1, h2, h3, hh.symm⟩
        · rintro ⟨-, -, -, hh⟩
          exact hh.symm
      · rw [if_pos (by simpa using h3)]
        subst h2
        simp [h3]
    · rw [if_pos (by simpa using h2)]
      simp [h2]

/-- C1: the consent-gated pointer read behind provider key recovery
succeeds only when the caller is the intended provider and some stored
consent for the `(record, requester)` pair is active and unexpired at read
time; recovery returns a key only under the same condition; and whenever
the condition fails, recovery fails with the AccessDenied outcome and no
key is returned. -/
theorem C1_recovery_access_gated (chain : ChainState) (ipfs : IpfsStore)
    (ethDecrypt : String → Option String) (now : Nat) (sender : Address)
    (providerAddress : Address) (recordId : Nat) :
    (clientGetWrappedKeyHash chain now sender recordId providerAddress ≠ "" →
      sender = providerAddress ∧ ConsentValidFor chain now recordId providerAddress) ∧
    (∀ key, getDecryptionKeyForRecord_Provider chain ipfs ethDecrypt now sender
        providerAddress recordId = .ok key →
      sender = providerAddress ∧ ConsentValidFor chain now recordId providerAddress) ∧
    (¬(sender = providerAddress ∧ ConsentValidFor chain now recordId providerAddress) →
      getDecryptionKeyForRecord_Provider chain ipfs ethDecrypt now sender
        providerAddress recordId = .error .AccessDenied) := by
  have hread : clientGetWrappedKeyHash chain now sender recordId providerAddress ≠ "" →
      sender = providerAddress ∧ ConsentValidFor chain now recordId providerAddress := by
    intro hne
    unfold clientGetWrappedKeyHash at hne
    cases hg : getWrappedKeyHash chain now sender recordId providerAddress with
    | error e =>
        rw [hg] at hne
        exact absurd rfl hne
    | ok hsh =>
        obtain ⟨-, hprov, hvalid, -⟩ := getWrappedKeyHash_ok_iff.mp hg
        exact ⟨hprov.symm, consentValidFor_of_hasValidConsent hvalid⟩
  refine ⟨hread, ?_, ?_⟩
  · intro key hok
    by_cases hpz : clientGetWrappedKeyHash chain now sender recordId providerAddress = ""
    · simp only [getDecryptionKeyForRecord_Provider] at hok
      rw [if_pos hpz] at hok
      exact Except.noConfusion hok
    · exact hread hpz
  · intro hcond
    have hpz : clientGetWrappedKeyHash chain now sender recordId providerAddress = "" := by
      by_contra hpne
      exact hcond (hread hpne)
    simp only [getDecryptionKeyForRecord_Provider]
    rw [if_pos hpz]

/-- C1 witness: on the freshly deployed ledger no consent exists, so
recovery for record 1 by provider `0xb` fails with the AccessDenied
outcome. -/
theorem C1_witness :
    getDecryptionKeyForRecord_Provider initialState ⟨[]⟩ (fun _ => none) 0 "0xb"
      "0xb" 1 = .error .AccessDenied :=
  (C1_recovery_access_gated initialState ⟨[]⟩ (fun _ => none) 0 "0xb" "0xb" 1).2.2
    (by
      rintro ⟨-, i, h1, h2, -⟩
      have hc : initialState.consentCount = 0 := rfl
      omega)

theorem bytesToHexChars_ne_nil {bs : Bytes} (h : bs ≠ []) :
    bytesToHexChars bs ≠ [] := by
  cases bs with
  | nil => exact absurd rfl h
  | cons b rest => simp [bytesToHexChars, byteToHexChars]

theorem bytesToHexString_ne_empty {bs : Bytes} (h : bs ≠ []) :
    bytesToHexString bs ≠ "" := by
  intro hc
  have hdata := congrArg String.data hc
  exact bytesToHexChars_ne_nil h hdata

theorem trimChars_bytesToHexChars {bs : Bytes} (h : ∀ b ∈ bs, b < 256) :
    trimChars (bytesToHexChars bs) = bytesToHexChars bs :=
  trimChars_eq_self fun c hc =>
    not_ws_of_isHexDigit (all_isHexDigit_bytesToHexChars h c hc)

theorem matchesHexKeyRegex_bytesToHexChars {bs : Bytes} (h0 : bs ≠ [])
    (h : ∀ b ∈ bs, b < 256) :
    matchesHexKeyRegex (bytesToHexChars bs) = true := by
  unfold matchesHexKeyRegex
  simp only [startsWith0x_bytesToHexChars_eq_false h, Bool.false_eq_true, if_false,
    decide_eq_true_eq]
  refine ⟨?_, ?_⟩
  · simp only [List.isEmpty_eq_true]
    exact fun hc => bytesToHexChars_ne_nil h0 hc
  · rw [List.all_eq_true]
    intro c hc
    exact all_isHexDigit_bytesToHexChars h c hc

theorem strip0x_bytesToHexChars {bs : Bytes} (h : ∀ b ∈ bs, b < 256) :
    strip0x (bytesToHexChars bs) = bytesToHexChars bs :=
  strip0x_eq_self (startsWith0x_bytesToHexChars_eq_false h)

/-- C6: after a successful share of a content key, provider-side recovery
through the consent-gated pointer read, the blob fetch, the trim and hex
validation, the `eth_decrypt` gatekeeper (failing or passing through) and
the hex decode yields exactly the shared raw key bytes, so decrypting what
was encrypted under the original key with the recovered key returns every
payload. -/
theorem C6_key_share_recover_roundtrip (chain chain2 : ChainState)
    (ipfs ipfs2 : IpfsStore) (owner providerAddress : Address)
    (patientKey : Bytes) (recordId : Nat) (now : Nat)
    (ethDecrypt : String → Option String)
    (hbytes : ∀ b ∈ patientKey, b < 256)
    (hshare : shareKeyForRecord chain ipfs owner patientKey recordId providerAddress =
      some (chain2, ipfs2))
    (hconsent : hasValidConsent chain2 now recordId providerAddress = true)
    (hdec : ∀ inp r, ethDecrypt inp = some r →
      toLowerCase (String.mk (strip0x r.data)) =
        toLowerCase (String.mk (strip0x inp.data))) :
    ∃ recoveredKey,
      getDecryptionKeyForRecord_Provider chain2 ipfs2 ethDecrypt now providerAddress
        providerAddress recordId = .ok recoveredKey ∧
      recoveredKey = patientKey ∧
      (∀ (C : AeadCipher), C.Correct → ∀ (p iv : Bytes), p ≠ [] →
        iv.length = IV_LENGTH_BYTES →
        ∃ r, encryptData C iv p patientKey = some r ∧
          decryptData C (r.iv ++ r.encryptedData) recoveredKey = some p) := by
  -- unpack the share
  have hpk : patientKey ≠ [] := by
    intro hc
    rw [hc] at hshare
    simp [shareKeyForRecord] at hshare
  have hpkE : patientKey.isEmpty = false := by
    cases patientKey with
    | nil => exact absurd rfl hpk
    | cons b rest => rfl
  have hhexne : bytesToHexString patientKey ≠ "" := bytesToHexString_ne_empty hpk
  simp only [shareKeyForRecord, hpkE, Bool.false_eq_true, if_false] at hshare
  rw [if_neg hhexne] at hshare
  set up := uploadToIPFS ipfs (bytesToHexString patientKey) with hup
  cases hsw : shareWrappedKeyWithProvider chain owner recordId providerAddress up.1 with
  | none => rw [hsw] at hshare; exact Option.noConfusion hshare
  | some chainShared =>
      rw [hsw] at hshare
      simp only [Option.some.injEq, Prod.mk.injEq] at hshare
      obtain ⟨hchain2, hipfs2⟩ := hshare
      unfold shareWrappedKeyWithProvider at hsw
      cases hswh : shareWrappedKeyHash chain owner recordId providerAddress up.1 with
      | error e => rw [hswh] at hsw; exact Option.noConfusion hsw
      | ok chainShared2 =>
          rw [hswh] at hsw
          simp only [Option.some.injEq] at hsw
          obtain ⟨hrec, -, -, hcidne, hstate⟩ := shareWrappedKeyHash_ok_iff.mp hswh
          subst hsw
          subst hstate
          subst hchain2
          subst hipfs2
          -- the gated pointer read returns the uploaded content id
          have hget : getWrappedKeyHash
              (sharedKeyState chain owner recordId providerAddress up.1)
              now providerAddress recordId providerAddress = .ok up.1 := by
            apply getWrappedKeyHash_ok_iff.mpr
            refine ⟨hrec, rfl, hconsent, ?_⟩
            simp [sharedKeyState]
          have hclient : clientGetWrappedKeyHash
              (sharedKeyState chain owner recordId providerAddress up.1)
              now providerAddress recordId providerAddress = up.1 := by
            unfold clientGetWrappedKeyHash
            rw [hget]
          -- the blob fetch returns the hex key text
          have hfetch : fetchFromIPFS up.2 up.1 = some (bytesToHexString patientKey) := by
            rw [hup]
            exact fetchFromIPFS_uploadToIPFS ipfs (bytesToHexString patientKey)
          -- the fetched text is the untouched hex encoding
          have hdata : (bytesToHexString patientKey).data = bytesToHexChars patientKey := rfl
          have htrim : trimChars (bytesToHexString patientKey).data =
              bytesToHexChars patientKey := by
            rw [hdata]
            exact trimChars_bytesToHexChars hbytes
          have hne2 : (bytesToHexChars patientKey).isEmpty = false := by
            cases hcc : bytesToHexChars patientKey with
            | nil => exact absurd hcc (bytesToHexChars_ne_nil hpk)
            | cons c rest => rfl
          have hregex : matchesHexKeyRegex (bytesToHexChars patientKey) = true :=
        matchesHexKeyRegex_bytesToHexChars hpk hbytes
          have hstrip : strip0x (bytesToHexChars patientKey) = bytesToHexChars patientKey :=
            strip0x_bytesToHexChars hbytes
          have hdecode : hexCharsToBytes (bytesToHexChars patientKey) = patientKey :=
            hexCharsToBytes_bytesToHexChars hbytes
          have hkeyE : patientKey.isEmpty = false := hpkE
          -- now evaluate the recovery
          refine ⟨patientKey, ?_, rfl, ?_⟩
          · simp only [getDecryptionKeyForRecord_Provider, hclient]
            rw [if_neg hcidne]
            rw [hfetch]
            simp only [htrim, hne2, Bool.false_eq_true, if_false]
            rw [if_neg (by simp [hregex])]
            have hkey : (match ethDecrypt (String.mk (prefix0x (bytesToHexChars patientKey))) with
                | some decryptResult =>
                    if decryptResult.data.isEmpty then bytesToHexChars patientKey
                    else if toLowerCase (String.mk (strip0x decryptResult.data)) =
                            toLowerCase (String.mk (strip0x (bytesToHexChars patientKey))) then
                      bytesToHexChars patientKey
                    else decryptResult.data
                | none => bytesToHexChars patientKey) = bytesToHexChars patientKey := by
              cases hed : ethDecrypt (String.mk (prefix0x (bytesToHexChars patientKey))) with
              | none => rfl
              | some r =>
                  show (if r.data.isEmpty = true then bytesToHexChars patientKey
                    else if toLowerCase (String.mk (strip0x r.data)) =
                            toLowerCase (String.mk (strip0x (bytesToHexChars patientKey))) then
                      bytesToHexChars patientKey
                    else r.data) = bytesToHexChars patientKey
                  by_cases hre : r.data.isEmpty
                  · rw [if_pos hre]
                  · rw [if_neg hre]
                    have heq := hdec _ r hed
                    rw [if_pos ?_]
                    rw [heq]
                    have : strip0x (String.mk (prefix0x (bytesToHexChars patientKey))).data =
                        bytesToHexChars patientKey :=
                      strip0x_prefix0x (startsWith0x_bytesToHexChars_eq_false hbytes)
                    rw [this, hstrip]
            rw [hkey, hstrip, hdecode]
            rw [if_neg (by simp [hkeyE])]
          · intro C hC p iv hp hiv
            refine ⟨{ encryptedData := C.encryptRaw patientKey iv p, iv := iv }, ?_, ?_⟩
            · unfold encryptData
              rw [if_neg (by simp [hp])]
            · exact decryptData_encryptData hC patientKey iv p hiv

/-- C6 witness: the concrete share of key `[171, 205]` followed by a
recovery by `0xb` at time 50 under the still-valid consent. -/
theorem C6_witness :
    ∃ recoveredKey,
      getDecryptionKeyForRecord_Provider sharedChainFixture sharedIpfsFixture
        (fun _ => none) 50 "0xb" "0xb" 1 = .ok recoveredKey ∧
      recoveredKey = [171, 205] ∧
      (∀ (C : AeadCipher), C.Correct → ∀ (p iv : Bytes), p ≠ [] →
        iv.length = IV_LENGTH_BYTES →
        ∃ r, encryptData C iv p [171, 205] = some r ∧
          decryptData C (r.iv ++ r.encryptedData) recoveredKey = some p) :=
  C6_key_share_recover_roundtrip stateWithConsent sharedChainFixture ⟨[]⟩
    sharedIpfsFixture "0xa" "0xb" [171, 205] 1 50 (fun _ => none)
    (by decide) rfl (by decide) (fun _ _ h => Option.noConfusion h)

